import Mathlib

/-!
Verification development for the repository
progressive-neural-architecture-search.

The repository has two independent source files:

* rank_architectures.py — a script that reads a CSV training-history log,
  parses each line (score to float, every field at an odd index to int),
  sorts the rows by descending score with the stable builtin sort, and
  prints each row as its score followed by the list of remaining fields.

* manager.py — class NetworkManager whose method get_rewards opens a fresh
  TensorFlow session on a fresh graph, builds a Keras model from the
  controller actions, compiles it, trains it (fit, or fit_generator when
  use_generator is set) with a ModelCheckpoint callback saving the best
  weights, reloads the checkpoint, evaluates, and returns the validation
  accuracy as the reward.

Both are embedded shallowly below: Python floats are modelled as exact
rationals, framework calls as an oracle of Except-valued outcomes, and the
observable behaviour of get_rewards as a result together with the ordered
trace of framework calls it makes.
-/

namespace RankArch

/-- Model of one raw CSV field of rank_architectures.py: a comma-separated
token of an input line, with the trailing newline already stripped (the
script strips it via slicing before any conversion).  A field is classified
by how the Python conversions int(...) and float(...) treat it: an integer
literal (accepted by both), a non-integer numeric literal (accepted by float
only; the finite value is modelled as an exact rational), or a non-numeric
word (rejected by both, raising ValueError). -/
inductive Field where
  | intLit (n : Int)
  | floatLit (q : ℚ)
  | word (s : String)
  deriving DecidableEq

/-- Embeds Python int(field): it succeeds exactly on integer literals; on any
other field it raises ValueError, modelled as none. -/
def pyInt : Field → Option Int
  | .intLit n => some n
  | .floatLit _ => none
  | .word _ => none

/-- Embeds Python float(field): it succeeds on numeric literals and raises
ValueError on non-numeric words, modelled as none. -/
def pyFloat : Field → Option ℚ
  | .intLit n => some (n : ℚ)
  | .floatLit q => some q
  | .word _ => none

/-- One cell of a parsed row after the conversion loop of the script: fields
at Python indices 1, 3, 5, … of temp are replaced by ints (Sum.inl), all
other fields are left as the raw field (Sum.inr). -/
abbrev Cell := Int ⊕ Field

/-- Result of parsing one CSV line, i.e. the list temp after all conversions:
temp at index 0 converted by float, the remaining fields as cells. -/
structure ParsedRow where
  score : ℚ
  rest : List Cell
  deriving DecidableEq

/-- Embeds the conversion loop of rank_architectures.py lines 26 and 27,
running over the tail of temp (the fields after the score).  The flag is true
when the current field sits at an odd index of temp, i.e. the loop converts
it with int; a failed conversion raises ValueError, modelled as none. -/
def convertIds : List Field → Bool → Option (List Cell)
  | [], _ => some []
  | f :: fs, true =>
    match pyInt f with
    | none => none
    | some n =>
      match convertIds fs false with
      | none => none
      | some cs => some (Sum.inl n :: cs)
  | f :: fs, false =>
    match convertIds fs true with
    | none => none
    | some cs => some (Sum.inr f :: cs)

/-- Embeds the parsing of one line (rank_architectures.py lines 20 to 29):
the line is split on commas, the newline is stripped (already reflected in
the Field model), field 0 is converted with float and every odd-indexed
field with int.  Python line.split always yields at least one field, so the
empty case is unreachable for real input lines. -/
def parseLine : List Field → Option ParsedRow
  | [] => none
  | f :: fs =>
    match pyFloat f with
    | none => none
    | some q =>
      match convertIds fs true with
      | none => none
      | some cs => some ⟨q, cs⟩

/-- Embeds reading and parsing the whole file: every line in order; the first
conversion error aborts the script with an uncaught ValueError, modelled as
none.  Lines 31 and 32 of the script re-apply float to the already converted
score, which is the identity, so they are not modelled separately. -/
def parseFile (contents : List (List Field)) : Option (List ParsedRow) :=
  contents.mapM parseLine

/-- The comparison used to embed the Python sort: row a may come before row b
exactly when the score of b is at most the score of a (descending order,
non-strict, so that equal-score rows may keep their input order). -/
def descLe (a b : ParsedRow) : Bool :=
  decide (b.score ≤ a.score)

/-- Embeds line 34 of the script, sorted with the score key and reverse set
to True.  Python sorted is a stable sort, and with reverse it orders by
descending key while keeping equal-key elements in input order;
List.mergeSort with the total preorder descLe is exactly such a stable
descending sort. -/
def pySorted (rows : List ParsedRow) : List ParsedRow :=
  rows.mergeSort descLe

/-- Embeds the output loop (lines 36 and 37): every sorted row is printed as
its score followed by the list of its remaining fields. -/
def printedLines (rows : List ParsedRow) : List (ℚ × List Cell) :=
  (pySorted rows).map fun r => (r.score, r.rest)

/-- Observable outcome of one run of rank_architectures.py:
missingFile msg means the script printed msg and called exit, parseError
means a ValueError from a conversion propagated, output gives the printed
rows in print order. -/
inductive ScriptResult where
  | missingFile (msg : String)
  | parseError
  | output (printed : List (ℚ × List Cell))
  deriving DecidableEq

/-- Embeds the whole script after argument handling: fileExists is the value
of the os.path.exists check on the chosen file name, contents the lines of
the file split into fields.  When the file is missing the script prints the
message and calls exit without ever opening the file, so the contents
argument is not inspected on that path. -/
def rank_architectures (fileExists : Bool) (contents : List (List Field)) :
    ScriptResult :=
  if fileExists then
    match parseFile contents with
    | none => .parseError
    | some rows => .output (printedLines rows)
  else
    .missingFile "Please run `train.py` script to generate architectures first !"

/-- Formalises the documented row format of the spec, section 3: a numeric
score followed by alternating pairs of an action name and an integer value.
The flag is true when the current field sits at a name position (odd index
of the whole row); names are arbitrary fields, values must be integer
literals, and the row must end after a complete pair. -/
def specPairsOk : List Field → Bool → Bool
  | [], expectName => expectName
  | _f :: fs, true => specPairsOk fs false
  | f :: fs, false => (pyInt f).isSome && specPairsOk fs true

/-- A whole row in the documented format: field 0 numeric, then alternating
name and integer-value fields. -/
def docRowFormat : List Field → Bool
  | [] => false
  | f :: fs => (pyFloat f).isSome && specPairsOk fs true

/-- The condition under which the conversion loop of the script actually
succeeds on the tail of a row: every field at a converted position (odd
index of temp) must itself be an integer literal; the fields in between are
untouched and unconstrained. -/
def idsOk : List Field → Bool → Bool
  | [], _ => true
  | f :: fs, true => (pyInt f).isSome && idsOk fs false
  | _f :: fs, false => idsOk fs true

end RankArch

namespace Manager

/-- An error raised out of NetworkManager.get_rewards: either a framework
exception propagated unchanged, or the UnboundLocalError (a subclass of
NameError) raised in the generator branch when the evaluate call looks up
the local names X_val and y_val, which are assigned only in the
non-generator branch. -/
inductive Err (ε : Type) where
  | framework (e : ε)
  | nameError
  deriving DecidableEq

/-- The framework calls get_rewards makes, in program order, as observable
events.  openSession records entering the with block tf.Session on a fresh
tf.Graph (followed by K.set_session); fit and fitGenerator carry the monitor
passed to their ModelCheckpoint callback (which saves best-only weights to
weights/temp_network.h5); loadWeights carries the checkpoint path;
closeSession records the session being closed (the with block closes it on
exit, normal or exceptional, and the explicit close on line 109 closes an
already closed session). -/
inductive Event where
  | openSession (freshGraph : Bool)
  | buildModel
  | compile
  | fit (monitor : String)
  | fitGenerator (monitor : String)
  | loadWeights (path : String)
  | evaluate
  | closeSession
  deriving DecidableEq

/-- Oracle for the wrapped framework: the outcome of each call get_rewards
can make, for one fixed model_fn, actions list and dataset.  μ is the
abstract type of the built Keras model object, ε the abstract type of
framework exceptions; evaluate returns the pair of loss and accuracy,
modelled as rationals. -/
structure Framework (ε μ : Type) where
  model_fn : Except ε μ
  compile : μ → Except ε Unit
  fit : μ → Except ε Unit
  fit_generator : μ → Except ε Unit
  load_weights : μ → String → Except ε Unit
  evaluate : μ → Except ε (ℚ × ℚ)

/-- Embeds NetworkManager.__init__ (manager.py lines 13 to 35): the
constructor stores its arguments unchanged.  The dataset itself is kept
abstract (its effect is absorbed into the Framework oracle). -/
structure NetworkManager (δ : Type) where
  dataset : δ
  epochs : Nat
  batchsize : Nat
  use_generator : Bool
  monitor : String

/-- Sequences one framework call inside the with block of get_rewards: the
call is issued (so its event is recorded), then a raised exception unwinds
the block unchanged — nothing is caught or translated — while a normal
return runs the continuation. -/
def step {ε α : Type} (call : Except ε α) (ev : Event)
    (k : α → Except (Err ε) ℚ × List Event) : Except (Err ε) ℚ × List Event :=
  match call with
  | .error e => (.error (.framework e), [ev])
  | .ok a => ((k a).1, ev :: (k a).2)

/-- The body of the with block of get_rewards (manager.py lines 66 to 106):
build the model from the actions, compile it with Adam and categorical
crossentropy, then either fit (non-generator, ModelCheckpoint monitoring
self.monitor) or fit_generator (ModelCheckpoint monitoring val_acc), reload
the best checkpoint from weights/temp_network.h5, and evaluate on X_val and
y_val, returning the accuracy component as the reward.  In the generator
branch the names X_val and y_val are unbound locals, so the argument lookup
of the evaluate call raises UnboundLocalError before evaluate is invoked. -/
def run_body {ε μ δ : Type} (mgr : NetworkManager δ) (F : Framework ε μ) :
    Except (Err ε) ℚ × List Event :=
  step F.model_fn .buildModel fun m =>
  step (F.compile m) .compile fun _ =>
  if mgr.use_generator then
    step (F.fit_generator m) (.fitGenerator "val_acc") fun _ =>
    step (F.load_weights m "weights/temp_network.h5")
      (.loadWeights "weights/temp_network.h5") fun _ =>
    (.error .nameError, [])
  else
    step (F.fit m) (.fit mgr.monitor) fun _ =>
    step (F.load_weights m "weights/temp_network.h5")
      (.loadWeights "weights/temp_network.h5") fun _ =>
    step (F.evaluate m) .evaluate fun la =>
    (.ok la.2, [])

/-- Embeds NetworkManager.get_rewards (manager.py lines 37 to 111): enter a
with block holding a fresh session on a fresh graph, run the training body,
and close the session whether the body returns or raises (the with block
guarantees this; line 109 then closes an already closed session).  The
result pairs the returned reward or propagated exception with the ordered
trace of framework events. -/
def get_rewards {ε μ δ : Type} (mgr : NetworkManager δ) (F : Framework ε μ) :
    Except (Err ε) ℚ × List Event :=
  ((run_body mgr F).1,
    .openSession true :: ((run_body mgr F).2 ++ [.closeSession]))

/-- The proposition that e is an exception actually raised, verbatim, by one
of the framework calls get_rewards can make: by the model-building function
or by compile, fit, fit_generator, load_weights or evaluate on the built
model. -/
def raisedBy {ε μ : Type} (F : Framework ε μ) (e : ε) : Prop :=
  F.model_fn = .error e ∨
  ∃ m, F.model_fn = .ok m ∧
    (F.compile m = .error e ∨ F.fit m = .error e ∨
     F.fit_generator m = .error e ∨
     F.load_weights m "weights/temp_network.h5" = .error e ∨
     F.evaluate m = .error e)

/-- Concrete oracle for witnesses: every call succeeds and evaluate returns
loss 1/8 and accuracy 3/4. -/
def okF : Framework String Unit :=
  ⟨.ok (), fun _ => .ok (), fun _ => .ok (), fun _ => .ok (),
   fun _ _ => .ok (), fun _ => .ok (1 / 8, 3 / 4)⟩

/-- Concrete oracle for witnesses: compile raises the exception boom, every
other call succeeds. -/
def compileFailF : Framework String Unit :=
  ⟨.ok (), fun _ => .error "boom", fun _ => .ok (), fun _ => .ok (),
   fun _ _ => .ok (), fun _ => .ok (1 / 8, 3 / 4)⟩

/-- Concrete manager for witnesses, constructed with the default arguments
of __init__ (use_generator False). -/
def mgrPlain : NetworkManager Unit :=
  ⟨(), 5, 128, false, "val_acc"⟩

/-- Concrete manager for witnesses, constructed with use_generator True. -/
def mgrGen : NetworkManager Unit :=
  ⟨(), 5, 128, true, "val_acc"⟩

end Manager

namespace RankArch

/-- The comparison descLe is transitive. -/
theorem descLe_trans (a b c : ParsedRow) (h1 : descLe a b = true)
    (h2 : descLe b c = true) : descLe a c = true := by
  simp only [descLe, decide_eq_true_eq] at *
  exact h2.trans h1

/-- The comparison descLe is total. -/
theorem descLe_total (a b : ParsedRow) : (descLe a b || descLe b a) = true := by
  simp only [descLe, Bool.or_eq_true, decide_eq_true_eq]
  exact le_total b.score a.score

/-- The embedded sort produces rows pairwise non-increasing in score. -/
theorem pySorted_pairwise (rows : List ParsedRow) :
    List.Pairwise (fun a b : ParsedRow => b.score ≤ a.score) (pySorted rows) := by
  have h := @List.sorted_mergeSort ParsedRow descLe descLe_trans descLe_total rows
  exact h.imp (by intro a b hab; simpa [descLe] using hab)

/-- Sorting does not change the multiset of rows. -/
theorem pySorted_perm (rows : List ParsedRow) : (pySorted rows).Perm rows :=
  List.mergeSort_perm rows descLe

/-- C1: for every input CSV file, the list of rows printed by the ranking
script is sorted in non-increasing order of the parsed score field (field 0
of each row): for any two printed rows, the one printed earlier has a score
greater than or equal to the one printed later. -/
theorem C1_output_sorted (contents : List (List Field))
    (printed : List (ℚ × List Cell))
    (h : rank_architectures true contents = .output printed) :
    List.Pairwise (fun a b : ℚ × List Cell => b.1 ≤ a.1) printed := by
  unfold rank_architectures at h
  rw [if_pos rfl] at h
  rcases hp : parseFile contents with _ | rows <;> rw [hp] at h
  · exact absurd h (by simp)
  · have hpr : printedLines rows = printed := by simpa using h
    rw [← hpr]
    unfold printedLines
    rw [List.pairwise_map]
    exact pySorted_pairwise rows

/-- Witness for C1 on a concrete two-line file with scores 1 and 2. -/
theorem C1_output_sorted_witness :
    List.Pairwise (fun a b : ℚ × List Cell => b.1 ≤ a.1)
      [((2 : ℚ), ([] : List Cell)), ((1 : ℚ), ([] : List Cell))] :=
  C1_output_sorted [[Field.intLit 1], [Field.intLit 2]] _ (by
    have hp : parseFile [[Field.intLit 1], [Field.intLit 2]] =
        some [⟨1, []⟩, ⟨2, []⟩] := rfl
    simp [rank_architectures, hp, printedLines, pySorted, List.mergeSort, descLe])

/-- C8: for every input CSV file that parses successfully, the multiset of
rows printed by the ranking script equals the multiset of rows read from the
file: each input row is printed exactly once, as its score followed by the
list of its remaining fields, and no other row is printed. -/
theorem C8_output_perm (contents : List (List Field)) (rows : List ParsedRow)
    (printed : List (ℚ × List Cell))
    (h1 : parseFile contents = some rows)
    (h2 : rank_architectures true contents = .output printed) :
    printed.Perm (rows.map fun r => (r.score, r.rest)) := by
  unfold rank_architectures at h2
  rw [if_pos rfl, h1] at h2
  have hpr : printedLines rows = printed := by simpa using h2
  rw [← hpr]
  exact List.Perm.map _ (pySorted_perm rows)

/-- Witness for C8 on a concrete two-line file with scores 1 and 2. -/
theorem C8_output_perm_witness :
    List.Perm [((2 : ℚ), ([] : List Cell)), ((1 : ℚ), ([] : List Cell))]
      [((1 : ℚ), ([] : List Cell)), ((2 : ℚ), ([] : List Cell))] :=
  C8_output_perm [[Field.intLit 1], [Field.intLit 2]] [⟨1, []⟩, ⟨2, []⟩] _
    rfl
    (by
      have hp : parseFile [[Field.intLit 1], [Field.intLit 2]] =
          some [⟨1, []⟩, ⟨2, []⟩] := rfl
      simp [rank_architectures, hp, printedLines, pySorted, List.mergeSort,
        descLe])

/-- C9: the ranking script sort is stable: for any two input rows with equal
scores, the row that appears earlier in the input file is printed before the
row that appears later.  Stated as: for each score value, the subsequence of
sorted rows carrying that score is exactly the subsequence of input rows
carrying that score, in input order. -/
theorem C9_sort_stable (rows : List ParsedRow) (q : ℚ) :
    (pySorted rows).filter (fun r => decide (r.score = q)) =
      rows.filter (fun r => decide (r.score = q)) := by
  have hpw : List.Pairwise (fun a b : ParsedRow => descLe a b = true)
      (rows.filter (fun r => decide (r.score = q))) := by
    refine List.pairwise_of_forall_mem_list ?_
    intro a ha b hb
    have ha2 := List.of_mem_filter ha
    have hb2 := List.of_mem_filter hb
    simp only [decide_eq_true_eq] at ha2 hb2
    simp [descLe, ha2, hb2]
  have hsub : (rows.filter (fun r => decide (r.score = q))).Sublist
      (pySorted rows) :=
    List.sublist_mergeSort descLe_trans descLe_total hpw
      (List.filter_sublist rows)
  have hsub2 : (rows.filter (fun r => decide (r.score = q))).Sublist
      ((pySorted rows).filter (fun r => decide (r.score = q))) := by
    have := List.Sublist.filter (fun r : ParsedRow => decide (r.score = q)) hsub
    rwa [List.filter_filter, show (fun a : ParsedRow =>
        decide (a.score = q) && decide (a.score = q)) =
        fun a : ParsedRow => decide (a.score = q) by
      funext a; rw [Bool.and_self]] at this
  have hlen : ((pySorted rows).filter
        (fun r => decide (r.score = q))).length =
      (rows.filter (fun r => decide (r.score = q))).length :=
    ((pySorted_perm rows).filter _).length_eq
  exact (List.Sublist.eq_of_length hsub2 hlen.symm).symm

/-- C10: if the input file given to the ranking script does not exist, the
script prints the message and terminates via exit (which leaves the
interpreter with status 0) without attempting to open the file: the result
does not depend on the file contents at all. -/
theorem C10_missing_file (contents : List (List Field)) :
    rank_architectures false contents =
      .missingFile
        "Please run `train.py` script to generate architectures first !" :=
  rfl

/-- The conversion loop succeeds exactly when every field at a converted
position is an integer literal: the success of convertIds coincides with the
idsOk predicate, in both directions. -/
theorem convertIds_isSome_eq : ∀ (fs : List Field) (b : Bool),
    (convertIds fs b).isSome = idsOk fs b := by
  intro fs
  induction fs with
  | nil => intro b; rfl
  | cons f fs ih =>
    intro b
    cases b with
    | true =>
      cases hf : pyInt f with
      | none => simp [convertIds, idsOk, hf]
      | some n =>
        cases hc : convertIds fs false with
        | none => simp [convertIds, idsOk, hf, hc, ← ih]
        | some cs => simp [convertIds, idsOk, hf, hc, ← ih]
    | false =>
      cases hc : convertIds fs true with
      | none => simp [convertIds, idsOk, hc, ← ih]
      | some cs => simp [convertIds, idsOk, hc, ← ih]

/-- C4, counterexample to the claim as stated: the row
(0.5, conv, 3) conforms to the documented format — numeric score, an action
name at index 1, an integer value at index 2 — yet the script fails to parse
it: the conversion loop applies int to the fields at odd indices, which are
the action names, and int of the word conv raises ValueError. -/
theorem C4_counterexample :
    docRowFormat [Field.floatLit (1 / 2), Field.word "conv",
        Field.intLit 3] = true ∧
    parseLine [Field.floatLit (1 / 2), Field.word "conv",
        Field.intLit 3] = none :=
  ⟨rfl, rfl⟩

/-- C4 as amended: the script converts field 0 with float and the fields at
odd indices 1, 3, 5, … — the action-name positions of the documented format
— with int, leaving the even-indexed value positions untouched; a line
parses without error exactly when field 0 is numeric and every odd-indexed
field is itself an integer literal (so a row whose action names are not
integer literals raises ValueError), and the parsed score is the float value
of field 0. -/
theorem C4_amended_parse (f : Field) (fs : List Field) :
    ((parseLine (f :: fs)).isSome = ((pyFloat f).isSome && idsOk fs true)) ∧
    (∀ q, pyFloat f = some q → ∀ row, parseLine (f :: fs) = some row →
      row.score = q) := by
  constructor
  · cases hf : pyFloat f with
    | none => simp [parseLine, hf]
    | some q =>
      cases hc : convertIds fs true with
      | none => simp [parseLine, hf, hc, ← convertIds_isSome_eq]
      | some cs => simp [parseLine, hf, hc, ← convertIds_isSome_eq]
  · intro q hq row hrow
    cases hc : convertIds fs true with
    | none => simp [parseLine, hq, hc] at hrow
    | some cs =>
      simp [parseLine, hq, hc] at hrow
      subst hrow
      rfl

/-- Witness for the amended C4 on the concrete line (1.5, 4, x): odd index 1
holds the integer literal 4, the untouched even index 2 may hold any word;
the line parses, and the parsed score is 3/2. -/
theorem C4_amended_parse_witness :
    (parseLine [Field.floatLit (3 / 2), Field.intLit 4,
        Field.word "x"]).isSome =
      ((pyFloat (Field.floatLit (3 / 2))).isSome &&
        idsOk [Field.intLit 4, Field.word "x"] true) ∧
    (⟨3 / 2, [Sum.inl 4, Sum.inr (Field.word "x")]⟩ : ParsedRow).score =
      3 / 2 :=
  ⟨(C4_amended_parse (Field.floatLit (3 / 2))
      [Field.intLit 4, Field.word "x"]).1,
   (C4_amended_parse (Field.floatLit (3 / 2))
      [Field.intLit 4, Field.word "x"]).2 (3 / 2) rfl
     ⟨3 / 2, [Sum.inl 4, Sum.inr (Field.word "x")]⟩ rfl⟩

end RankArch

namespace Manager

/-- Inversion of a normal return of get_rewards: the run must be in the
non-generator branch, and every framework call along the path must have
succeeded, with the returned reward equal to the accuracy component of the
evaluate call on the built model. -/
theorem run_body_ok_inv {ε μ δ : Type} (mgr : NetworkManager δ)
    (F : Framework ε μ) (r : ℚ) (h : (run_body mgr F).1 = .ok r) :
    mgr.use_generator = false ∧
    ∃ m loss, F.model_fn = .ok m ∧ F.compile m = .ok () ∧
      F.fit m = .ok () ∧
      F.load_weights m "weights/temp_network.h5" = .ok () ∧
      F.evaluate m = .ok (loss, r) := by
  rcases hmf : F.model_fn with e | m
  · simp [run_body, step, hmf] at h
  · rcases hc : F.compile m with e | u
    · simp [run_body, step, hmf, hc] at h
    · rcases hg : mgr.use_generator
      case false =>
        rcases hfit : F.fit m with e | u2
        · simp [run_body, step, hmf, hc, hg, hfit] at h
        · rcases hlw : F.load_weights m "weights/temp_network.h5" with e | u3
          · simp [run_body, step, hmf, hc, hg, hfit, hlw] at h
          · rcases hev : F.evaluate m with e | la
            · simp [run_body, step, hmf, hc, hg, hfit, hlw, hev] at h
            · simp only [run_body, step, hmf, hc, hg, hfit, hlw, hev,
                Bool.false_eq_true, if_false, Except.ok.injEq] at h
              refine ⟨rfl, m, la.1, rfl, hc, hfit, hlw, ?_⟩
              rw [← h]
              exact hev
      case true =>
        rcases hfg : F.fit_generator m with e | u2
        · simp [run_body, step, hmf, hc, hg, hfg] at h
        · rcases hlw : F.load_weights m "weights/temp_network.h5" with e | u3
          · simp [run_body, step, hmf, hc, hg, hfg, hlw] at h
          · simp [run_body, step, hmf, hc, hg, hfg, hlw] at h

/-- C2: for every call to NetworkManager.get_rewards that returns normally,
the returned reward is exactly the validation accuracy produced by the
framework evaluate call on the built model, with no clipping, scaling, or
other reward-shaping applied. -/
theorem C2_reward_is_accuracy {ε μ δ : Type} (mgr : NetworkManager δ)
    (F : Framework ε μ) (r : ℚ) (h : (get_rewards mgr F).1 = .ok r) :
    ∃ m loss, F.model_fn = .ok m ∧ F.evaluate m = .ok (loss, r) := by
  have h2 : (run_body mgr F).1 = .ok r := h
  obtain ⟨-, m, loss, hmf, -, -, -, hev⟩ := run_body_ok_inv mgr F r h2
  exact ⟨m, loss, hmf, hev⟩

/-- Witness for C2: with the all-succeeding oracle the call returns exactly
the accuracy 3/4 reported by evaluate. -/
theorem C2_reward_is_accuracy_witness :
    ∃ m loss, okF.model_fn = .ok m ∧ okF.evaluate m = .ok (loss, 3 / 4) :=
  C2_reward_is_accuracy mgrPlain okF (3 / 4) rfl

/-- Every call to NetworkManager.get_rewards that returns (with the one
scalar rational reward r) performed the framework steps in this fixed order:
open the fresh session, build the model from the actions, compile, fit with
the checkpoint callback monitoring self.monitor, reload the best
checkpointed weights, evaluate, close the session. -/
theorem steps_in_order_of_ok {ε μ δ : Type} (mgr : NetworkManager δ)
    (F : Framework ε μ) (r : ℚ) (h : (get_rewards mgr F).1 = .ok r) :
    (get_rewards mgr F).2 =
      [.openSession true, .buildModel, .compile, .fit mgr.monitor,
       .loadWeights "weights/temp_network.h5", .evaluate, .closeSession] := by
  have h2 : (run_body mgr F).1 = .ok r := h
  obtain ⟨hg, m, loss, hmf, hc, hfit, hlw, hev⟩ := run_body_ok_inv mgr F r h2
  simp [get_rewards, run_body, step, hmf, hc, hg, hfit, hlw, hev]

/-- The fixed order on the concrete all-succeeding non-generator run. -/
theorem steps_in_order_of_ok_example :
    (get_rewards mgrPlain okF).2 =
      [.openSession true, .buildModel, .compile, .fit "val_acc",
       .loadWeights "weights/temp_network.h5", .evaluate, .closeSession] :=
  steps_in_order_of_ok mgrPlain okF (3 / 4) rfl

/-- C3 fails on the code: with use_generator True and a framework where
every call succeeds, get_rewards does not perform the documented sequence —
it never issues a fit call or an evaluate call — and does not return a
scalar: it raises the UnboundLocalError, contradicting its own docstring,
which promises that the method trains the subnetwork and then returns a
reward. -/
theorem C3_generator_bug :
    (get_rewards mgrGen okF).1 = .error .nameError ∧
    (get_rewards mgrGen okF).2 =
      [.openSession true, .buildModel, .compile, .fitGenerator "val_acc",
       .loadWeights "weights/temp_network.h5", .closeSession] :=
  ⟨rfl, rfl⟩

/-- C5: for every NetworkManager constructed with use_generator True, a call
to get_rewards never returns a reward; and whenever the framework calls of
the generator branch themselves succeed, the call ends with the
UnboundLocalError (a NameError) raised by the evaluate argument lookup of
the unbound locals X_val and y_val. -/
theorem C5_generator_never_returns {ε μ δ : Type} (mgr : NetworkManager δ)
    (F : Framework ε μ) (hg : mgr.use_generator = true) :
    (∀ r, (get_rewards mgr F).1 ≠ .ok r) ∧
    (∀ m, F.model_fn = .ok m → F.compile m = .ok () →
      F.fit_generator m = .ok () →
      F.load_weights m "weights/temp_network.h5" = .ok () →
      (get_rewards mgr F).1 = .error .nameError) := by
  constructor
  · intro r h
    have h2 : (run_body mgr F).1 = .ok r := h
    obtain ⟨hg2, -⟩ := run_body_ok_inv mgr F r h2
    rw [hg] at hg2
    exact absurd hg2 (by simp)
  · intro m hmf hc hfg hlw
    show (run_body mgr F).1 = _
    simp [run_body, step, hmf, hc, hg, hfg, hlw]

/-- Witness for C5: with use_generator True and the all-succeeding oracle
the call raises the NameError and in particular does not return reward 1. -/
theorem C5_generator_never_returns_witness :
    (get_rewards mgrGen okF).1 = .error .nameError ∧
    (get_rewards mgrGen okF).1 ≠ .ok 1 :=
  ⟨(C5_generator_never_returns mgrGen okF rfl).2 () rfl rfl rfl rfl,
   (C5_generator_never_returns mgrGen okF rfl).1 1⟩

/-- Every framework exception surfacing from get_rewards was raised,
verbatim, by one of the framework calls. -/
theorem run_body_error_framework {ε μ δ : Type} (mgr : NetworkManager δ)
    (F : Framework ε μ) (e : ε)
    (h : (run_body mgr F).1 = .error (.framework e)) : raisedBy F e := by
  rcases hmf : F.model_fn with e0 | m
  · simp [run_body, step, hmf] at h
    exact Or.inl (hmf.trans (by rw [h]))
  · rcases hc : F.compile m with e0 | u
    · simp [run_body, step, hmf, hc] at h
      exact Or.inr ⟨m, hmf, Or.inl (hc.trans (by rw [h]))⟩
    · rcases hg : mgr.use_generator
      case false =>
        rcases hfit : F.fit m with e0 | u2
        · simp [run_body, step, hmf, hc, hg, hfit] at h
          exact Or.inr ⟨m, hmf, Or.inr (Or.inl (hfit.trans (by rw [h])))⟩
        · rcases hlw : F.load_weights m "weights/temp_network.h5" with e0 | u3
          · simp [run_body, step, hmf, hc, hg, hfit, hlw] at h
            exact Or.inr ⟨m, hmf,
              Or.inr (Or.inr (Or.inr (Or.inl (hlw.trans (by rw [h])))))⟩
          · rcases hev : F.evaluate m with e0 | la
            · simp [run_body, step, hmf, hc, hg, hfit, hlw, hev] at h
              exact Or.inr ⟨m, hmf,
                Or.inr (Or.inr (Or.inr (Or.inr (hev.trans (by rw [h])))))⟩
            · simp [run_body, step, hmf, hc, hg, hfit, hlw, hev] at h
      case true =>
        rcases hfg : F.fit_generator m with e0 | u2
        · simp [run_body, step, hmf, hc, hg, hfg] at h
          exact Or.inr ⟨m, hmf,
            Or.inr (Or.inr (Or.inl (hfg.trans (by rw [h]))))⟩
        · rcases hlw : F.load_weights m "weights/temp_network.h5" with e0 | u3
          · simp [run_body, step, hmf, hc, hg, hfg, hlw] at h
            exact Or.inr ⟨m, hmf,
              Or.inr (Or.inr (Or.inr (Or.inl (hlw.trans (by rw [h])))))⟩
          · simp [run_body, step, hmf, hc, hg, hfg, hlw] at h

/-- C6: get_rewards defines no custom error handling: an exception raised by
the model-building function or by compile, fit, fit_generator, load_weights
or evaluate propagates unchanged to the caller (first conjunct: any
framework error surfacing from the call was raised verbatim by one of those
calls; remaining conjuncts: whenever a call raises while all calls before it
succeeded, that very exception is the result — nothing is caught,
translated, or suppressed). -/
theorem C6_exceptions_propagate {ε μ δ : Type} (mgr : NetworkManager δ)
    (F : Framework ε μ) :
    (∀ e, (get_rewards mgr F).1 = .error (.framework e) → raisedBy F e) ∧
    (∀ e, F.model_fn = .error e →
      (get_rewards mgr F).1 = .error (.framework e)) ∧
    (∀ m e, F.model_fn = .ok m → F.compile m = .error e →
      (get_rewards mgr F).1 = .error (.framework e)) ∧
    (∀ m e, mgr.use_generator = false → F.model_fn = .ok m →
      F.compile m = .ok () → F.fit m = .error e →
      (get_rewards mgr F).1 = .error (.framework e)) ∧
    (∀ m e, mgr.use_generator = true → F.model_fn = .ok m →
      F.compile m = .ok () → F.fit_generator m = .error e →
      (get_rewards mgr F).1 = .error (.framework e)) ∧
    (∀ m e, F.model_fn = .ok m → F.compile m = .ok () →
      ((mgr.use_generator = false ∧ F.fit m = .ok ()) ∨
       (mgr.use_generator = true ∧ F.fit_generator m = .ok ())) →
      F.load_weights m "weights/temp_network.h5" = .error e →
      (get_rewards mgr F).1 = .error (.framework e)) ∧
    (∀ m e, mgr.use_generator = false → F.model_fn = .ok m →
      F.compile m = .ok () → F.fit m = .ok () →
      F.load_weights m "weights/temp_network.h5" = .ok () →
      F.evaluate m = .error e →
      (get_rewards mgr F).1 = .error (.framework e)) := by
  refine ⟨fun e h => run_body_error_framework mgr F e h,
    ?_, ?_, ?_, ?_, ?_, ?_⟩
  · intro e hmf
    show (run_body mgr F).1 = _
    simp [run_body, step, hmf]
  · intro m e hmf hc
    show (run_body mgr F).1 = _
    simp [run_body, step, hmf, hc]
  · intro m e hg hmf hc hfit
    show (run_body mgr F).1 = _
    simp [run_body, step, hmf, hc, hg, hfit]
  · intro m e hg hmf hc hfg
    show (run_body mgr F).1 = _
    simp [run_body, step, hmf, hc, hg, hfg]
  · intro m e hmf hc hor hlw
    show (run_body mgr F).1 = _
    rcases hor with ⟨hg, hfit⟩ | ⟨hg, hfg⟩
    · simp [run_body, step, hmf, hc, hg, hfit, hlw]
    · simp [run_body, step, hmf, hc, hg, hfg, hlw]
  · intro m e hg hmf hc hfit hlw hev
    show (run_body mgr F).1 = _
    simp [run_body, step, hmf, hc, hg, hfit, hlw, hev]

/-- Witness for C6: with the oracle whose compile raises boom, get_rewards
surfaces exactly that exception, and it is one raised by a framework call. -/
theorem C6_exceptions_propagate_witness :
    (get_rewards mgrPlain compileFailF).1 = .error (.framework "boom") ∧
    raisedBy compileFailF "boom" := by
  have h := (C6_exceptions_propagate mgrPlain compileFailF).2.2.1 () "boom"
    rfl rfl
  exact ⟨h, (C6_exceptions_propagate mgrPlain compileFailF).1 "boom" h⟩

/-- No framework call recorded inside the with block is a session event. -/
theorem run_body_trace_events {ε μ δ : Type} (mgr : NetworkManager δ)
    (F : Framework ε μ) :
    ∀ ev ∈ (run_body mgr F).2,
      (∀ b, ev ≠ .openSession b) ∧ ev ≠ .closeSession := by
  rcases hmf : F.model_fn with e | m
  · simp [run_body, step, hmf]
  · rcases hc : F.compile m with e | u
    · simp [run_body, step, hmf, hc]
    · rcases hg : mgr.use_generator
      case false =>
        rcases hfit : F.fit m with e | u2
        · simp [run_body, step, hmf, hc, hg, hfit]
        · rcases hlw : F.load_weights m "weights/temp_network.h5" with e | u3
          · simp [run_body, step, hmf, hc, hg, hfit, hlw]
          · rcases hev : F.evaluate m with e | la
            · simp [run_body, step, hmf, hc, hg, hfit, hlw, hev]
            · simp [run_body, step, hmf, hc, hg, hfit, hlw, hev]
      case true =>
        rcases hfg : F.fit_generator m with e | u2
        · simp [run_body, step, hmf, hc, hg, hfg]
        · rcases hlw : F.load_weights m "weights/temp_network.h5" with e | u3
          · simp [run_body, step, hmf, hc, hg, hfg, hlw]
          · simp [run_body, step, hmf, hc, hg, hfg, hlw]

/-- C7: every call to get_rewards creates a fresh session on a fresh graph
before any model construction or training (the very first event is the
session opening on a fresh graph), and that session is closed before
get_rewards returns, normally or exceptionally (the very last event is the
session closing, and no other session is ever opened or closed in between):
no session outlives a single training run. -/
theorem C7_session_lifecycle {ε μ δ : Type} (mgr : NetworkManager δ)
    (F : Framework ε μ) :
    ∃ mid, (get_rewards mgr F).2 =
        .openSession true :: (mid ++ [.closeSession]) ∧
      ∀ ev ∈ mid, (∀ b, ev ≠ .openSession b) ∧ ev ≠ .closeSession :=
  ⟨(run_body mgr F).2, rfl, run_body_trace_events mgr F⟩

/-- Witness for C7 on the concrete all-succeeding non-generator run. -/
theorem C7_session_lifecycle_witness :
    ∃ mid, (get_rewards mgrPlain okF).2 =
        .openSession true :: (mid ++ [.closeSession]) ∧
      ∀ ev ∈ mid, (∀ b, ev ≠ .openSession b) ∧ ev ≠ .closeSession :=
  C7_session_lifecycle mgrPlain okF

end Manager

namespace RankArch

/-- Witness for C9 on a concrete list with two equal-score rows. -/
theorem C9_sort_stable_witness :
    (pySorted [⟨1, [Sum.inl 7]⟩, ⟨1, [Sum.inl 8]⟩]).filter
        (fun r => decide (r.score = 1)) =
      List.filter (fun r => decide (r.score = 1))
        [⟨1, [Sum.inl 7]⟩, ⟨1, [Sum.inl 8]⟩] :=
  C9_sort_stable [⟨1, [Sum.inl 7]⟩, ⟨1, [Sum.inl 8]⟩] 1

/-- Witness for C10 on a concrete contents list. -/
theorem C10_missing_file_witness :
    rank_architectures false [[Field.word "x"]] =
      .missingFile
        "Please run `train.py` script to generate architectures first !" :=
  C10_missing_file [[Field.word "x"]]

end RankArch
